import Mathlib

/-!
Verification of the geography utilities of the repository: the ellipsoid
model factory, the FlatEarthCoordinateSystem class (construction,
fromLonLat, toLonLat), angle normalization and polar conversion.

Machine numbers are modelled as real numbers; the JavaScript remainder
operator and the toFixed formatting are modelled explicitly.
-/

namespace GeographyUtils

/-- Object holding the standard properties of an ellipsoid model, as
produced by the factory makeEllipsoidModel. -/
structure EllipsoidModel where
  inverseFlattening : ℝ
  semiMajorAxis : ℝ
  flattening : ℝ
  eccentricitySquared : ℝ
  eccentricity : ℝ
  semiMinorAxis : ℝ
  meanRadius : ℝ

/-- The ellipsoid model factory: computes the derived fields from the
semi-major axis and the inverse flattening, exactly as the source does. -/
noncomputable def makeEllipsoidModel (semiMajorAxis inverseFlattening : ℝ) :
    EllipsoidModel :=
  let flattening := 1.0 / inverseFlattening
  let eccentricitySquared := flattening * (2 - flattening)
  let semiMinorAxis := semiMajorAxis * (1 - flattening)
  { inverseFlattening := inverseFlattening
    semiMajorAxis := semiMajorAxis
    flattening := flattening
    eccentricitySquared := eccentricitySquared
    eccentricity := Real.sqrt eccentricitySquared
    semiMinorAxis := semiMinorAxis
    meanRadius := (semiMinorAxis + semiMajorAxis * 2) / 3 }

/-- The shared WGS84 ellipsoid constant. -/
noncomputable def WGS84 : EllipsoidModel := makeEllipsoidModel 6378137 298.257223563

/-- The FlatEarthCoordinateSystem object: configuration fields together
with the values cached by the private precalculate helper. -/
structure FlatEarthCoordinateSystem where
  origin : ℝ × ℝ
  angle : ℝ
  ellipsoid : EllipsoidModel
  type : String
  piOver180 : ℝ
  r1 : ℝ
  r2OverCosOriginLatInRadians : ℝ
  yMul : ℝ

/-- The body of the constructor after validation, together with the
private precalculate helper: stores the origin, converts the angle to
radians, and caches piOver180, r1, r2OverCosOriginLatInRadians and yMul. -/
noncomputable def precalcSystem (origin : ℝ × ℝ) (angle : ℝ) (type : String)
    (ellipsoid : EllipsoidModel) : FlatEarthCoordinateSystem :=
  let piOver180 := Real.pi / 180
  let originLatInRadians := origin.2 * piOver180
  let radius := ellipsoid.semiMajorAxis
  let eccSq := ellipsoid.eccentricitySquared
  let x := 1 - eccSq * Real.sin originLatInRadians ^ 2
  { origin := origin
    angle := angle * Real.pi / 180
    ellipsoid := ellipsoid
    type := type
    piOver180 := piOver180
    r1 := radius * (1 - eccSq) / x ^ (1.5 : ℝ)
    r2OverCosOriginLatInRadians := radius / Real.sqrt x * Real.cos originLatInRadians
    yMul := if type = "neu" then 1 else -1 }

/-- The FlatEarthCoordinateSystem constructor: rejects any axis type other
than neu and nwu with an error naming the offending value, and otherwise
builds the system with its cached values. -/
noncomputable def mkFlatEarthCoordinateSystem (origin : ℝ × ℝ) (angle : ℝ)
    (type : String) (ellipsoid : EllipsoidModel) :
    Except String FlatEarthCoordinateSystem :=
  if type ≠ "neu" ∧ type ≠ "nwu" then
    Except.error ("unknown coordinate system type: " ++ type)
  else
    Except.ok (precalcSystem origin angle type ellipsoid)

/-- Modelled from the OpenLayers coordinate helper: rotates a coordinate
pair counterclockwise by the given angle in radians. -/
noncomputable def rotateCoord (coordinate : ℝ × ℝ) (angle : ℝ) : ℝ × ℝ :=
  (coordinate.1 * Real.cos angle - coordinate.2 * Real.sin angle,
   coordinate.2 * Real.cos angle + coordinate.1 * Real.sin angle)

/-- Converts a longitude-latitude pair to flat Earth coordinates: scales
the latitude and longitude offsets, rotates by the negated angle, and
applies the yMul handedness multiplier to the second component. -/
noncomputable def FlatEarthCoordinateSystem.fromLonLat
    (sys : FlatEarthCoordinateSystem) (coords : ℝ × ℝ) : ℝ × ℝ :=
  let result := rotateCoord
    ((coords.2 - sys.origin.2) * sys.piOver180 * sys.r1,
     (coords.1 - sys.origin.1) * sys.piOver180 * sys.r2OverCosOriginLatInRadians)
    (-sys.angle)
  (result.1, result.2 * sys.yMul)

/-- Converts a flat Earth coordinate pair back to a longitude-latitude
pair: undoes the handedness multiplier, rotates by the angle, and divides
out the two scale factors. -/
noncomputable def FlatEarthCoordinateSystem.toLonLat
    (sys : FlatEarthCoordinateSystem) (coords : ℝ × ℝ) : ℝ × ℝ :=
  let result := rotateCoord (coords.1, coords.2 * sys.yMul) sys.angle
  (result.2 / sys.r2OverCosOriginLatInRadians / sys.piOver180 + sys.origin.1,
   result.1 / sys.r1 / sys.piOver180 + sys.origin.2)

/-- Truncation toward zero, the rounding used by the JavaScript remainder
operator. -/
noncomputable def jsTrunc (x : ℝ) : ℤ := if 0 ≤ x then ⌊x⌋ else ⌈x⌉

/-- The JavaScript remainder operator on numbers: the result has the sign
of the dividend. -/
noncomputable def jsRem (x y : ℝ) : ℝ := x - y * (jsTrunc (x / y) : ℝ)

/-- Renders an integer in 0..99 with two digits. -/
def padTwoDigits (m : ℤ) : String :=
  if m < 10 then "0" ++ toString m else toString m

/-- The toFixed(2) formatting for a nonnegative number: picks the integer
count of hundredths closest to the number, ties going to the larger one,
and renders it with two digits after the point. -/
noncomputable def toFixedTwoOfNonneg (x : ℝ) : String :=
  let n : ℤ := ⌊100 * x + 1 / 2⌋
  toString (n / 100) ++ "." ++ padTwoDigits (n % 100)

/-- The toFixed(2) formatting: negative numbers are rendered by negating
first and prepending a minus sign. -/
noncomputable def toFixedTwo (x : ℝ) : String :=
  if x < 0 then "-" ++ toFixedTwoOfNonneg (-x) else toFixedTwoOfNonneg x

/-- The numeric value produced by the normalization pipeline of
normalizeAngle before formatting. -/
noncomputable def normValue (angle : ℝ) : ℝ := jsRem (jsRem angle 360 + 360) 360

/-- Normalizes an angle given in degrees into [0, 360) rounded to two
decimal digits, returned as a string. -/
noncomputable def normalizeAngle (angle : ℝ) : String :=
  toFixedTwo (jsRem (jsRem angle 360 + 360) 360)

/-- The two-argument arctangent, modelled by the complex argument. -/
noncomputable def atan2 (y x : ℝ) : ℝ := Complex.arg ⟨x, y⟩

/-- Converts a pair of Cartesian coordinates into polar coordinates, the
angle being expressed in degrees between 0 and 360. -/
noncomputable def toPolar (coords : ℝ × ℝ) : ℝ × ℝ :=
  let dist := Real.sqrt (coords.1 * coords.1 + coords.2 * coords.2)
  if dist > 0 then
    let angle := atan2 coords.2 coords.1 * 180 / Real.pi
    (dist, if angle < 0 then angle + 360 else angle)
  else
    (0, 0)

/-- A JavaScript array of numbers as used by the coordinate functions. -/
abbrev JsArray := List ℝ

/-- A heap of allocated arrays: in-place mutation is modelled by
replacing the array stored behind a reference. -/
structure Store where
  arrays : List JsArray

/-- Reads the array behind a reference. -/
def Store.read (s : Store) (r : Nat) : JsArray := s.arrays.getD r []

/-- Overwrites the array behind a reference. -/
def Store.write (s : Store) (r : Nat) (a : JsArray) : Store :=
  ⟨s.arrays.set r a⟩

/-- Allocates a fresh array, returning the new store and the fresh
reference. -/
def Store.alloc (s : Store) (a : JsArray) : Store × Nat :=
  (⟨s.arrays ++ [a]⟩, s.arrays.length)

/-- Modelled from the OpenLayers coordinate helper: rotate reads the two
entries of the array behind the reference and overwrites them in place
with the rotated values. -/
noncomputable def rotateRef (s : Store) (r : Nat) (angle : ℝ) : Store :=
  let c := s.read r
  s.write r
    [c.getD 0 0 * Real.cos angle - c.getD 1 0 * Real.sin angle,
     c.getD 1 0 * Real.cos angle + c.getD 0 0 * Real.sin angle]

/-- Heap-level fromLonLat: reads the input array, allocates a fresh
result array, rotates the fresh array in place, stores the
handedness-adjusted second entry back into it, and returns its
reference. -/
noncomputable def FlatEarthCoordinateSystem.fromLonLatRef
    (sys : FlatEarthCoordinateSystem) (s : Store) (r : Nat) : Store × Nat :=
  let coords := s.read r
  let alloc1 := s.alloc
    [(coords.getD 1 0 - sys.origin.2) * sys.piOver180 * sys.r1,
     (coords.getD 0 0 - sys.origin.1) * sys.piOver180 *
       sys.r2OverCosOriginLatInRadians]
  let s2 := rotateRef alloc1.1 alloc1.2 (-sys.angle)
  let a := s2.read alloc1.2
  let s3 := s2.write alloc1.2 [a.getD 0 0, a.getD 1 0 * sys.yMul]
  (s3, alloc1.2)

/-- Heap-level toLonLat: reads the input array, allocates a fresh working
array with the handedness undone, rotates the fresh array in place, and
allocates and returns another fresh array holding the scaled results. -/
noncomputable def FlatEarthCoordinateSystem.toLonLatRef
    (sys : FlatEarthCoordinateSystem) (s : Store) (r : Nat) : Store × Nat :=
  let coords := s.read r
  let alloc1 := s.alloc [coords.getD 0 0, coords.getD 1 0 * sys.yMul]
  let s2 := rotateRef alloc1.1 alloc1.2 sys.angle
  let a := s2.read alloc1.2
  let alloc2 := s2.alloc
    [a.getD 1 0 / sys.r2OverCosOriginLatInRadians / sys.piOver180 + sys.origin.1,
     a.getD 0 0 / sys.r1 / sys.piOver180 + sys.origin.2]
  (alloc2.1, alloc2.2)

/-- Characterization of successful construction: the constructor returns a
system exactly on the two recognized axis types, and that system is the
precalculated one. -/
lemma mk_eq_ok_iff (origin : ℝ × ℝ) (angle : ℝ) (type : String)
    (ell : EllipsoidModel) (sys : FlatEarthCoordinateSystem) :
    mkFlatEarthCoordinateSystem origin angle type ell = Except.ok sys ↔
      (type = "neu" ∨ type = "nwu") ∧ sys = precalcSystem origin angle type ell := by
  unfold mkFlatEarthCoordinateSystem
  by_cases h : type ≠ "neu" ∧ type ≠ "nwu"
  · rw [if_pos h]
    constructor
    · intro hfalse
      exact absurd hfalse (by simp)
    · intro hc
      rcases hc.1 with h1 | h1
      · exact absurd h1 h.1
      · exact absurd h1 h.2
  · rw [if_neg h]
    rw [not_and_or, not_not, not_not] at h
    constructor
    · intro he
      injection he with he
      exact ⟨h, he.symm⟩
    · intro hc
      rw [hc.2]

/-- The handedness multiplier of any precalculated system squares to one. -/
lemma precalc_yMul_sq (origin : ℝ × ℝ) (angle : ℝ) (type : String)
    (ell : EllipsoidModel) :
    (precalcSystem origin angle type ell).yMul *
      (precalcSystem origin angle type ell).yMul = 1 := by
  unfold precalcSystem
  by_cases h : type = "neu" <;> simp [h]

/-- Rotating by the negated angle and then by the angle is the identity. -/
lemma rotateCoord_neg_cancel (v : ℝ × ℝ) (a : ℝ) :
    rotateCoord (rotateCoord v (-a)) a = v := by
  obtain ⟨vx, vy⟩ := v
  have hsc := Real.sin_sq_add_cos_sq a
  simp only [rotateCoord, Real.cos_neg, Real.sin_neg]
  apply Prod.ext
  · simp only
    linear_combination vx * hsc
  · simp only
    linear_combination vy * hsc

/-- Rotating by the angle and then by the negated angle is the identity. -/
lemma rotateCoord_cancel_neg (v : ℝ × ℝ) (a : ℝ) :
    rotateCoord (rotateCoord v a) (-a) = v := by
  obtain ⟨vx, vy⟩ := v
  have hsc := Real.sin_sq_add_cos_sq a
  simp only [rotateCoord, Real.cos_neg, Real.sin_neg]
  apply Prod.ext
  · simp only
    linear_combination vx * hsc
  · simp only
    linear_combination vy * hsc

/-- Round trip in the geodetic-planar-geodetic direction for any system
whose cached scale factors and degree-radian factor are nonzero and whose
handedness multiplier squares to one. -/
lemma toLonLat_fromLonLat_general (sys : FlatEarthCoordinateSystem)
    (hk : sys.piOver180 ≠ 0) (h1 : sys.r1 ≠ 0)
    (h2 : sys.r2OverCosOriginLatInRadians ≠ 0)
    (hm : sys.yMul * sys.yMul = 1) (p : ℝ × ℝ) :
    sys.toLonLat (sys.fromLonLat p) = p := by
  obtain ⟨o, a, e, t, k, r1, r2, m⟩ := sys
  obtain ⟨x, y⟩ := p
  simp only at hk h1 h2 hm
  simp only [FlatEarthCoordinateSystem.fromLonLat, FlatEarthCoordinateSystem.toLonLat]
  rw [mul_assoc _ m m, hm, mul_one, Prod.mk.eta, rotateCoord_neg_cancel]
  apply Prod.ext
  · simp only
    field_simp
  · simp only
    field_simp

/-- Round trip in the planar-geodetic-planar direction for any system
whose cached scale factors and degree-radian factor are nonzero and whose
handedness multiplier squares to one. -/
lemma fromLonLat_toLonLat_general (sys : FlatEarthCoordinateSystem)
    (hk : sys.piOver180 ≠ 0) (h1 : sys.r1 ≠ 0)
    (h2 : sys.r2OverCosOriginLatInRadians ≠ 0)
    (hm : sys.yMul * sys.yMul = 1) (p : ℝ × ℝ) :
    sys.fromLonLat (sys.toLonLat p) = p := by
  obtain ⟨o, a, e, t, k, r1, r2, m⟩ := sys
  obtain ⟨x, y⟩ := p
  simp only at hk h1 h2 hm
  simp only [FlatEarthCoordinateSystem.fromLonLat, FlatEarthCoordinateSystem.toLonLat]
  have hd1 : ∀ z : ℝ, (z / r1 / k + o.2 - o.2) * k * r1 = z := by
    intro z
    field_simp
    ring
  have hd2 : ∀ z : ℝ, (z / r2 / k + o.1 - o.1) * k * r2 = z := by
    intro z
    field_simp
    ring
  rw [hd1, hd2, Prod.mk.eta, rotateCoord_cancel_neg]
  simp only
  rw [mul_assoc _ m m, hm, mul_one]

/-- The degree-radian factor cached by any precalculated system is positive. -/
lemma precalc_piOver180_pos (origin : ℝ × ℝ) (angle : ℝ) (type : String)
    (ell : EllipsoidModel) : 0 < (precalcSystem origin angle type ell).piOver180 := by
  simp only [precalcSystem]
  positivity

/-- The latitude-correction denominator is positive for any physically
valid eccentricity. -/
lemma precalc_x_pos (origin : ℝ × ℝ) (ell : EllipsoidModel)
    (he0 : 0 ≤ ell.eccentricitySquared) (he1 : ell.eccentricitySquared < 1) :
    0 < 1 - ell.eccentricitySquared *
      Real.sin (origin.2 * (Real.pi / 180)) ^ 2 := by
  have hs := Real.sin_sq_le_one (origin.2 * (Real.pi / 180))
  nlinarith [sq_nonneg (Real.sin (origin.2 * (Real.pi / 180)))]

/-- The meridional scale factor of a precalculated system is positive for
any physically valid ellipsoid. -/
lemma precalc_r1_pos (origin : ℝ × ℝ) (angle : ℝ) (type : String)
    (ell : EllipsoidModel) (hA : 0 < ell.semiMajorAxis)
    (he0 : 0 ≤ ell.eccentricitySquared) (he1 : ell.eccentricitySquared < 1) :
    0 < (precalcSystem origin angle type ell).r1 := by
  have hx := precalc_x_pos origin ell he0 he1
  simp only [precalcSystem]
  exact div_pos (mul_pos hA (by linarith)) (Real.rpow_pos_of_pos hx _)

/-- The east-west scale factor of a precalculated system is positive for
any physically valid ellipsoid and origin latitude below 90 degrees in
absolute value. -/
lemma precalc_r2_pos (origin : ℝ × ℝ) (angle : ℝ) (type : String)
    (ell : EllipsoidModel) (hA : 0 < ell.semiMajorAxis)
    (he0 : 0 ≤ ell.eccentricitySquared) (he1 : ell.eccentricitySquared < 1)
    (hlat : |origin.2| < 90) :
    0 < (precalcSystem origin angle type ell).r2OverCosOriginLatInRadians := by
  have hx := precalc_x_pos origin ell he0 he1
  have hpi : (0:ℝ) < Real.pi / 180 := by positivity
  have hmem : origin.2 * (Real.pi / 180) ∈ Set.Ioo (-(Real.pi / 2)) (Real.pi / 2) := by
    rw [abs_lt] at hlat
    constructor
    · have := mul_lt_mul_of_pos_right hlat.1 hpi
      nlinarith
    · have := mul_lt_mul_of_pos_right hlat.2 hpi
      nlinarith
  have hcos := Real.cos_pos_of_mem_Ioo hmem
  simp only [precalcSystem]
  exact mul_pos (div_pos hA (Real.sqrt_pos.mpr hx)) hcos

/-- C1: for every coordinate system constructed with a valid axis
convention, an origin latitude below 90 degrees in absolute value, any
angle, and a physically valid ellipsoid, toLonLat is a left inverse of
fromLonLat: the geodetic round trip is exact over real arithmetic. -/
theorem flatEarth_roundtrip_lonlat (origin : ℝ × ℝ) (angle : ℝ) (type : String)
    (ell : EllipsoidModel) (sys : FlatEarthCoordinateSystem) (p : ℝ × ℝ)
    (hmk : mkFlatEarthCoordinateSystem origin angle type ell = Except.ok sys)
    (hlat : |origin.2| < 90) (hA : 0 < ell.semiMajorAxis)
    (he0 : 0 ≤ ell.eccentricitySquared) (he1 : ell.eccentricitySquared < 1) :
    sys.toLonLat (sys.fromLonLat p) = p := by
  obtain ⟨-, rfl⟩ := (mk_eq_ok_iff origin angle type ell sys).mp hmk
  exact toLonLat_fromLonLat_general _
    (ne_of_gt (precalc_piOver180_pos origin angle type ell))
    (ne_of_gt (precalc_r1_pos origin angle type ell hA he0 he1))
    (ne_of_gt (precalc_r2_pos origin angle type ell hA he0 he1 hlat))
    (precalc_yMul_sq origin angle type ell) p

/-- Witness for C1 at a concrete configuration and point. -/
theorem flatEarth_roundtrip_lonlat_witness :
    (precalcSystem (19, 47) 30 "neu" WGS84).toLonLat
      ((precalcSystem (19, 47) 30 "neu" WGS84).fromLonLat (18.5, 47.25)) =
      (18.5, 47.25) :=
  flatEarth_roundtrip_lonlat (19, 47) 30 "neu" WGS84 _ (18.5, 47.25)
    ((mk_eq_ok_iff (19, 47) 30 "neu" WGS84 _).mpr ⟨Or.inl rfl, rfl⟩)
    (by norm_num)
    (by norm_num [WGS84, makeEllipsoidModel])
    (by norm_num [WGS84, makeEllipsoidModel])
    (by norm_num [WGS84, makeEllipsoidModel])

/-- C9: under the same validity conditions, fromLonLat is also a left
inverse of toLonLat: the planar round trip is exact over real
arithmetic as well. -/
theorem flatEarth_roundtrip_planar (origin : ℝ × ℝ) (angle : ℝ) (type : String)
    (ell : EllipsoidModel) (sys : FlatEarthCoordinateSystem) (p : ℝ × ℝ)
    (hmk : mkFlatEarthCoordinateSystem origin angle type ell = Except.ok sys)
    (hlat : |origin.2| < 90) (hA : 0 < ell.semiMajorAxis)
    (he0 : 0 ≤ ell.eccentricitySquared) (he1 : ell.eccentricitySquared < 1) :
    sys.fromLonLat (sys.toLonLat p) = p := by
  obtain ⟨-, rfl⟩ := (mk_eq_ok_iff origin angle type ell sys).mp hmk
  exact fromLonLat_toLonLat_general _
    (ne_of_gt (precalc_piOver180_pos origin angle type ell))
    (ne_of_gt (precalc_r1_pos origin angle type ell hA he0 he1))
    (ne_of_gt (precalc_r2_pos origin angle type ell hA he0 he1 hlat))
    (precalc_yMul_sq origin angle type ell) p

/-- Witness for C9 at a concrete configuration and planar point. -/
theorem flatEarth_roundtrip_planar_witness :
    (precalcSystem (19, 47) 30 "nwu" WGS84).fromLonLat
      ((precalcSystem (19, 47) 30 "nwu" WGS84).toLonLat (1000, -250)) =
      (1000, -250) :=
  flatEarth_roundtrip_planar (19, 47) 30 "nwu" WGS84 _ (1000, -250)
    ((mk_eq_ok_iff (19, 47) 30 "nwu" WGS84 _).mpr ⟨Or.inr rfl, rfl⟩)
    (by norm_num)
    (by norm_num [WGS84, makeEllipsoidModel])
    (by norm_num [WGS84, makeEllipsoidModel])
    (by norm_num [WGS84, makeEllipsoidModel])

/-- C3: for every configuration accepted by the constructor, fromLonLat
maps the origin itself to the zero pair. -/
theorem flatEarth_fromLonLat_origin (origin : ℝ × ℝ) (angle : ℝ) (type : String)
    (ell : EllipsoidModel) (sys : FlatEarthCoordinateSystem)
    (hmk : mkFlatEarthCoordinateSystem origin angle type ell = Except.ok sys) :
    sys.fromLonLat origin = (0, 0) := by
  obtain ⟨-, rfl⟩ := (mk_eq_ok_iff origin angle type ell sys).mp hmk
  simp [FlatEarthCoordinateSystem.fromLonLat, rotateCoord, precalcSystem]

/-- Witness for C3 at a concrete configuration. -/
theorem flatEarth_fromLonLat_origin_witness :
    (precalcSystem (-122.4, 37.7) 15 "nwu" WGS84).fromLonLat (-122.4, 37.7) =
      (0, 0) :=
  flatEarth_fromLonLat_origin (-122.4, 37.7) 15 "nwu" WGS84 _
    ((mk_eq_ok_iff (-122.4, 37.7) 15 "nwu" WGS84 _).mpr ⟨Or.inr rfl, rfl⟩)

/-- C4: construction fails with a configuration error naming the invalid
value exactly when the axis type is neither neu nor nwu, and succeeds
exactly on those two values. -/
theorem flatEarth_construction_validation (origin : ℝ × ℝ) (angle : ℝ)
    (ell : EllipsoidModel) (type : String) :
    (mkFlatEarthCoordinateSystem origin angle type ell =
        Except.error ("unknown coordinate system type: " ++ type) ↔
      ¬(type = "neu" ∨ type = "nwu")) ∧
    ((∃ sys, mkFlatEarthCoordinateSystem origin angle type ell = Except.ok sys) ↔
      (type = "neu" ∨ type = "nwu")) := by
  unfold mkFlatEarthCoordinateSystem
  by_cases h : type ≠ "neu" ∧ type ≠ "nwu"
  · rw [if_pos h]
    constructor
    · simp only [true_iff, not_or]
      exact h
    · simp only [reduceCtorEq, exists_false, false_iff, not_or]
      exact h
  · rw [if_neg h]
    rw [not_and_or, not_not, not_not] at h
    constructor
    · constructor
      · intro hfalse
        exact absurd hfalse (by simp)
      · intro hc
        exact absurd h hc
    · simp only [Except.ok.injEq, exists_eq, exists_eq', true_iff]
      exact h

/-- C5: the ellipsoid factory derives flattening, squared eccentricity,
eccentricity, semi-minor axis and mean radius by the stated formulas, and
the WGS84 constant is the factory applied to the WGS84 parameters. -/
theorem makeEllipsoidModel_derived_fields (a invF : ℝ) (ha : 0 < a)
    (hf : 0 < invF) :
    (makeEllipsoidModel a invF).flattening = 1 / invF ∧
    (makeEllipsoidModel a invF).eccentricitySquared =
      (makeEllipsoidModel a invF).flattening *
        (2 - (makeEllipsoidModel a invF).flattening) ∧
    (makeEllipsoidModel a invF).eccentricity =
      Real.sqrt ((makeEllipsoidModel a invF).eccentricitySquared) ∧
    (makeEllipsoidModel a invF).semiMinorAxis =
      a * (1 - (makeEllipsoidModel a invF).flattening) ∧
    (makeEllipsoidModel a invF).meanRadius =
      ((makeEllipsoidModel a invF).semiMinorAxis + 2 * a) / 3 ∧
    WGS84 = makeEllipsoidModel 6378137 298.257223563 := by
  refine ⟨?_, ?_, ?_, ?_, ?_, rfl⟩ <;>
    simp only [makeEllipsoidModel] <;> norm_num <;> ring

/-- Witness for C5 at concrete positive parameters. -/
theorem makeEllipsoidModel_derived_fields_witness :
    (makeEllipsoidModel 2 4).flattening = 1 / 4 ∧
    (makeEllipsoidModel 2 4).eccentricitySquared =
      (makeEllipsoidModel 2 4).flattening *
        (2 - (makeEllipsoidModel 2 4).flattening) ∧
    (makeEllipsoidModel 2 4).eccentricity =
      Real.sqrt ((makeEllipsoidModel 2 4).eccentricitySquared) ∧
    (makeEllipsoidModel 2 4).semiMinorAxis =
      2 * (1 - (makeEllipsoidModel 2 4).flattening) ∧
    (makeEllipsoidModel 2 4).meanRadius =
      ((makeEllipsoidModel 2 4).semiMinorAxis + 2 * 2) / 3 ∧
    WGS84 = makeEllipsoidModel 6378137 298.257223563 :=
  makeEllipsoidModel_derived_fields 2 4 (by norm_num) (by norm_num)

/-- C8: with a fixed origin, angle zero and the same input point, the
second output component under the neu convention is the negation of the
one under the nwu convention. -/
theorem flatEarth_axis_convention_sign (origin : ℝ × ℝ) (ell : EllipsoidModel)
    (sysNeu sysNwu : FlatEarthCoordinateSystem) (p : ℝ × ℝ)
    (hNeu : mkFlatEarthCoordinateSystem origin 0 "neu" ell = Except.ok sysNeu)
    (hNwu : mkFlatEarthCoordinateSystem origin 0 "nwu" ell = Except.ok sysNwu) :
    (sysNeu.fromLonLat p).2 = -((sysNwu.fromLonLat p).2) := by
  obtain ⟨-, rfl⟩ := (mk_eq_ok_iff origin 0 "neu" ell sysNeu).mp hNeu
  obtain ⟨-, rfl⟩ := (mk_eq_ok_iff origin 0 "nwu" ell sysNwu).mp hNwu
  simp [FlatEarthCoordinateSystem.fromLonLat, rotateCoord, precalcSystem]

/-- Witness for C8 at a concrete origin, ellipsoid and point. -/
theorem flatEarth_axis_convention_sign_witness :
    ((precalcSystem (19, 47) 0 "neu" WGS84).fromLonLat (20, 48)).2 =
      -(((precalcSystem (19, 47) 0 "nwu" WGS84).fromLonLat (20, 48)).2) :=
  flatEarth_axis_convention_sign (19, 47) WGS84 _ _ (20, 48)
    ((mk_eq_ok_iff (19, 47) 0 "neu" WGS84 _).mpr ⟨Or.inl rfl, rfl⟩)
    ((mk_eq_ok_iff (19, 47) 0 "nwu" WGS84 _).mpr ⟨Or.inr rfl, rfl⟩)

/-- A real power with exponent 1.5 of a positive base is the base times
its square root. -/
lemma rpow_onePointFive (x : ℝ) (hx : 0 < x) :
    x ^ (1.5 : ℝ) = x * Real.sqrt x := by
  rw [show (1.5 : ℝ) = 1 + 1 / 2 by norm_num, Real.rpow_add hx, Real.rpow_one,
    ← Real.sqrt_eq_rpow]

/-- Numeric bounds for the squared eccentricity of the WGS84 ellipsoid. -/
lemma WGS84_eccSq_bounds :
    (0.0066943 : ℝ) < WGS84.eccentricitySquared ∧
      WGS84.eccentricitySquared < 0.0066944 := by
  norm_num [WGS84, makeEllipsoidModel]

/-- Numeric bounds for the sine of 47 degrees expressed in radians. -/
lemma sin47deg_bounds :
    (0.68 : ℝ) < Real.sin (47 * (Real.pi / 180)) ∧
      Real.sin (47 * (Real.pi / 180)) < 0.82031 := by
  have hpl := Real.pi_gt_d6
  have hph := Real.pi_lt_d6
  have ha_lo : (0.8203 : ℝ) < 47 * (Real.pi / 180) := by nlinarith
  have ha_hi : 47 * (Real.pi / 180) < 0.82031 := by nlinarith
  have hA_pos : (0 : ℝ) < 47 * (Real.pi / 180) := by linarith
  constructor
  · have hcube := Real.sin_gt_sub_cube hA_pos (by linarith)
    have h2 : (47 * (Real.pi / 180)) ^ 2 < 0.6730 := by nlinarith
    have h3 : (47 * (Real.pi / 180)) ^ 3 < 0.5521 := by nlinarith
    linarith
  · exact lt_trans (Real.sin_lt hA_pos) ha_hi

/-- Numeric bounds for the meridional scale factor cached by the system of
the known-value scenario: WGS84 ellipsoid, origin latitude 47 degrees. -/
lemma r1_47_bounds :
    (6364000 : ℝ) < (precalcSystem (19, 47) 0 "neu" WGS84).r1 ∧
      (precalcSystem (19, 47) 0 "neu" WGS84).r1 < 6379000 := by
  have he := WGS84_eccSq_bounds
  have hsin := sin47deg_bounds
  set e := WGS84.eccentricitySquared with hedef
  set s := Real.sin (47 * (Real.pi / 180)) with hsdef
  have hsin_pos : (0 : ℝ) < s := by linarith [hsin.1]
  have hs2_lo : (0.4624 : ℝ) < s ^ 2 := by nlinarith [hsin.1]
  have hs2_hi : s ^ 2 < 0.67291 := by nlinarith [hsin.2]
  have hx_lo : (0.99549 : ℝ) < 1 - e * s ^ 2 := by
    nlinarith [he.1, he.2, hs2_hi, sq_nonneg s]
  have hx_hi : 1 - e * s ^ 2 < 0.99691 := by
    nlinarith [he.1, he.2, hs2_lo, sq_nonneg s]
  have hx_pos : (0 : ℝ) < 1 - e * s ^ 2 := by linarith
  have hsq_lo : (0.99774 : ℝ) < Real.sqrt (1 - e * s ^ 2) := by
    rw [show (0.99774 : ℝ) = Real.sqrt (0.99774 ^ 2) by
      rw [Real.sqrt_sq (by norm_num)]]
    apply Real.sqrt_lt_sqrt (by norm_num)
    nlinarith
  have hsq_hi : Real.sqrt (1 - e * s ^ 2) < 0.99846 := by
    rw [Real.sqrt_lt' (by norm_num)]
    nlinarith
  have h15 : (1 - e * s ^ 2) ^ (1.5 : ℝ) =
      (1 - e * s ^ 2) * Real.sqrt (1 - e * s ^ 2) :=
    rpow_onePointFive _ hx_pos
  have h15_lo : (0.99324 : ℝ) < (1 - e * s ^ 2) ^ (1.5 : ℝ) := by
    rw [h15]
    nlinarith
  have h15_hi : (1 - e * s ^ 2) ^ (1.5 : ℝ) < 0.99538 := by
    rw [h15]
    nlinarith [Real.sqrt_nonneg (1 - e * s ^ 2)]
  have h15_pos : (0 : ℝ) < (1 - e * s ^ 2) ^ (1.5 : ℝ) := by linarith
  have hAx : WGS84.semiMajorAxis = 6378137 := by
    norm_num [WGS84, makeEllipsoidModel]
  have hnum_lo : (6335439 : ℝ) < WGS84.semiMajorAxis * (1 - e) := by
    rw [hAx]
    nlinarith [he.2]
  have hnum_hi : WGS84.semiMajorAxis * (1 - e) < 6335440 := by
    rw [hAx]
    nlinarith [he.1]
  have hr1 : (precalcSystem (19, 47) 0 "neu" WGS84).r1 =
      WGS84.semiMajorAxis * (1 - e) / (1 - e * s ^ 2) ^ (1.5 : ℝ) := rfl
  rw [hr1]
  constructor
  · rw [lt_div_iff h15_pos]
    linarith [h15_hi, hnum_lo]
  · rw [div_lt_iff h15_pos]
    linarith [h15_lo, hnum_hi]

/-- C2: in the known-value scenario (WGS84, origin latitude 47 degrees,
angle zero, neu convention) the first output component of fromLonLat is
the latitude offset times pi over 180 times the meridional radius r1,
whose formula is the stated one, and one degree of latitude maps to a
value between 111000 and 111700 meters. -/
theorem flatEarth_north_component_known_value
    (sys : FlatEarthCoordinateSystem)
    (hmk : mkFlatEarthCoordinateSystem (19, 47) 0 "neu" WGS84 = Except.ok sys) :
    (∀ p : ℝ × ℝ, (sys.fromLonLat p).1 = (p.2 - 47) * (Real.pi / 180) * sys.r1) ∧
    sys.r1 = WGS84.semiMajorAxis * (1 - WGS84.eccentricitySquared) /
      (1 - WGS84.eccentricitySquared *
        Real.sin (47 * (Real.pi / 180)) ^ 2) ^ (1.5 : ℝ) ∧
    WGS84.semiMajorAxis = 6378137 ∧
    (sys.fromLonLat (19, 48)).1 = Real.pi / 180 * sys.r1 ∧
    111000 ≤ (sys.fromLonLat (19, 48)).1 ∧
    (sys.fromLonLat (19, 48)).1 ≤ 111700 := by
  obtain ⟨-, rfl⟩ := (mk_eq_ok_iff (19, 47) 0 "neu" WGS84 sys).mp hmk
  have hfirst : ∀ p : ℝ × ℝ,
      ((precalcSystem (19, 47) 0 "neu" WGS84).fromLonLat p).1 =
        (p.2 - 47) * (Real.pi / 180) * (precalcSystem (19, 47) 0 "neu" WGS84).r1 := by
    intro p
    simp [FlatEarthCoordinateSystem.fromLonLat, rotateCoord, precalcSystem]
  have hr1b := r1_47_bounds
  have hpl := Real.pi_gt_d6
  have hph := Real.pi_lt_d6
  refine ⟨hfirst, rfl, by norm_num [WGS84, makeEllipsoidModel], ?_, ?_, ?_⟩
  · rw [hfirst (19, 48)]
    norm_num
  · rw [hfirst (19, 48)]
    have : ((19, 48) : ℝ × ℝ).2 - 47 = 1 := by norm_num
    rw [this, one_mul]
    nlinarith [hr1b.1, hr1b.2]
  · rw [hfirst (19, 48)]
    have : ((19, 48) : ℝ × ℝ).2 - 47 = 1 := by norm_num
    rw [this, one_mul]
    nlinarith [hr1b.1, hr1b.2]

/-- Witness for C2 with the concretely constructed system. -/
theorem flatEarth_north_component_known_value_witness :
    (∀ p : ℝ × ℝ,
      ((precalcSystem (19, 47) 0 "neu" WGS84).fromLonLat p).1 =
        (p.2 - 47) * (Real.pi / 180) * (precalcSystem (19, 47) 0 "neu" WGS84).r1) ∧
    (precalcSystem (19, 47) 0 "neu" WGS84).r1 =
      WGS84.semiMajorAxis * (1 - WGS84.eccentricitySquared) /
        (1 - WGS84.eccentricitySquared *
          Real.sin (47 * (Real.pi / 180)) ^ 2) ^ (1.5 : ℝ) ∧
    WGS84.semiMajorAxis = 6378137 ∧
    ((precalcSystem (19, 47) 0 "neu" WGS84).fromLonLat (19, 48)).1 =
      Real.pi / 180 * (precalcSystem (19, 47) 0 "neu" WGS84).r1 ∧
    111000 ≤ ((precalcSystem (19, 47) 0 "neu" WGS84).fromLonLat (19, 48)).1 ∧
    ((precalcSystem (19, 47) 0 "neu" WGS84).fromLonLat (19, 48)).1 ≤ 111700 :=
  flatEarth_north_component_known_value _
    ((mk_eq_ok_iff (19, 47) 0 "neu" WGS84 _).mpr ⟨Or.inl rfl, rfl⟩)

/-- The JavaScript remainder by 360 lies strictly between -360 and 360. -/
lemma jsRem360_bounds (x : ℝ) : -360 < jsRem x 360 ∧ jsRem x 360 < 360 := by
  unfold jsRem jsTrunc
  have hx360 : x = 360 * (x / 360) := by ring
  by_cases h : 0 ≤ x / 360
  · rw [if_pos h]
    have h1 := Int.floor_le (x / 360)
    have h2 := Int.lt_floor_add_one (x / 360)
    constructor <;> linarith
  · rw [if_neg h]
    have h1 := Int.le_ceil (x / 360)
    have h2 := Int.ceil_lt_add_one (x / 360)
    constructor <;> linarith

/-- The JavaScript remainder by 360 of a nonnegative number is
nonnegative. -/
lemma jsRem360_nonneg (x : ℝ) (hx : 0 ≤ x) : 0 ≤ jsRem x 360 := by
  unfold jsRem jsTrunc
  have hq : 0 ≤ x / 360 := by positivity
  rw [if_pos hq]
  have h1 := Int.floor_le (x / 360)
  have hx360 : x = 360 * (x / 360) := by ring
  linarith

/-- The value normalized by normalizeAngle lies in the interval from 0
inclusive to 360 exclusive. -/
lemma normValue_mem (angle : ℝ) : 0 ≤ normValue angle ∧ normValue angle < 360 := by
  unfold normValue
  have h1 := jsRem360_bounds angle
  have h2 := jsRem360_bounds (jsRem angle 360 + 360)
  have h3 : 0 ≤ jsRem angle 360 + 360 := by linarith [h1.1]
  exact ⟨jsRem360_nonneg _ h3, h2.2⟩

/-- Computes the JavaScript remainder by 360 when the quotient floor is
known and the dividend is nonnegative. -/
lemma jsRem360_eval (x : ℝ) (z : ℤ) (h1 : (z : ℝ) ≤ x / 360)
    (h2 : x / 360 < z + 1) (hq : 0 ≤ x / 360) :
    jsRem x 360 = x - 360 * z := by
  unfold jsRem jsTrunc
  rw [if_pos hq, Int.floor_eq_iff.mpr ⟨h1, h2⟩]

/-- Computes the JavaScript remainder by 360 when the quotient ceiling is
known and the dividend is negative. -/
lemma jsRem360_eval_neg (x : ℝ) (z : ℤ) (h1 : (z : ℝ) - 1 < x / 360)
    (h2 : x / 360 ≤ z) (hq : ¬0 ≤ x / 360) :
    jsRem x 360 = x - 360 * z := by
  unfold jsRem jsTrunc
  rw [if_neg hq, Int.ceil_eq_iff.mpr ⟨by exact_mod_cast h1, h2⟩]

/-- Evaluates the toFixed(2) formatting at a nonnegative value whose
floor of one hundred times it plus one half is known. -/
lemma toFixedTwoOfNonneg_eval (x : ℝ) (n : ℤ) (h1 : (n : ℝ) ≤ 100 * x + 1 / 2)
    (h2 : 100 * x + 1 / 2 < n + 1) :
    toFixedTwoOfNonneg x =
      toString (n / 100) ++ "." ++ padTwoDigits (n % 100) := by
  unfold toFixedTwoOfNonneg
  rw [Int.floor_eq_iff.mpr ⟨h1, h2⟩]

/-- C6: for every real input angle, normalizeAngle returns the toFixed(2)
rendering of a normalized value lying in [0, 360), and the three sample
normalizations from the spec hold. -/
theorem normalizeAngle_spec :
    (∀ angle : ℝ, 0 ≤ normValue angle ∧ normValue angle < 360 ∧
      normalizeAngle angle = toFixedTwoOfNonneg (normValue angle)) ∧
    normalizeAngle 370 = "10.00" ∧
    normalizeAngle (-10) = "350.00" ∧
    normalizeAngle 360 = "0.00" := by
  have hgen : ∀ angle : ℝ, 0 ≤ normValue angle ∧ normValue angle < 360 ∧
      normalizeAngle angle = toFixedTwoOfNonneg (normValue angle) := by
    intro angle
    have hm := normValue_mem angle
    refine ⟨hm.1, hm.2, ?_⟩
    unfold normalizeAngle toFixedTwo
    unfold normValue at hm ⊢
    rw [if_neg (not_lt.mpr hm.1)]
  refine ⟨hgen, ?_, ?_, ?_⟩
  · have h1 : jsRem (370 : ℝ) 360 = 10 := by
      rw [jsRem360_eval 370 1 (by norm_num) (by norm_num) (by norm_num)]
      norm_num
    have hval : normValue 370 = 10 := by
      unfold normValue
      rw [h1, show (10 : ℝ) + 360 = 370 by norm_num, h1]
    rw [(hgen 370).2.2, hval,
      toFixedTwoOfNonneg_eval 10 1000 (by norm_num) (by norm_num)]
    rfl
  · have h1 : jsRem (-10 : ℝ) 360 = -10 := by
      rw [jsRem360_eval_neg (-10) 0 (by norm_num) (by norm_num) (by norm_num)]
      norm_num
    have h2 : jsRem (350 : ℝ) 360 = 350 := by
      rw [jsRem360_eval 350 0 (by norm_num) (by norm_num) (by norm_num)]
      norm_num
    have hval : normValue (-10) = 350 := by
      unfold normValue
      rw [h1, show (-10 : ℝ) + 360 = 350 by norm_num, h2]
    rw [(hgen (-10)).2.2, hval,
      toFixedTwoOfNonneg_eval 350 35000 (by norm_num) (by norm_num)]
    rfl
  · have h1 : jsRem (360 : ℝ) 360 = 0 := by
      rw [jsRem360_eval 360 1 (by norm_num) (by norm_num) (by norm_num)]
      norm_num
    have hval : normValue 360 = 0 := by
      unfold normValue
      rw [h1, show (0 : ℝ) + 360 = 360 by norm_num, h1]
    rw [(hgen 360).2.2, hval,
      toFixedTwoOfNonneg_eval 0 0 (by norm_num) (by norm_num)]
    rfl

/-- C7: toPolar returns the Euclidean norm as the distance together with
an atan2-derived angle lying in [0, 360), returns (0, 0) at zero
distance, and matches the four sample conversions from the spec. -/
theorem toPolar_spec :
    (∀ c : ℝ × ℝ, (toPolar c).1 = Real.sqrt (c.1 * c.1 + c.2 * c.2) ∧
      0 ≤ (toPolar c).2 ∧ (toPolar c).2 < 360) ∧
    toPolar (0, 0) = (0, 0) ∧
    toPolar (1, 0) = (1, 0) ∧
    toPolar (0, 1) = (1, 90) ∧
    toPolar (-1, 0) = (1, 180) := by
  have hpi := Real.pi_pos
  have hgen : ∀ c : ℝ × ℝ, (toPolar c).1 = Real.sqrt (c.1 * c.1 + c.2 * c.2) ∧
      0 ≤ (toPolar c).2 ∧ (toPolar c).2 < 360 := by
    intro c
    unfold toPolar
    by_cases h : Real.sqrt (c.1 * c.1 + c.2 * c.2) > 0
    · rw [if_pos h]
      refine ⟨rfl, ?_⟩
      have h1 : atan2 c.2 c.1 ≤ Real.pi := Complex.arg_le_pi _
      have h2 : -Real.pi < atan2 c.2 c.1 := Complex.neg_pi_lt_arg _
      have hang_le : atan2 c.2 c.1 * 180 / Real.pi ≤ 180 := by
        rw [div_le_iff hpi]
        nlinarith
      have hang_gt : -180 < atan2 c.2 c.1 * 180 / Real.pi := by
        rw [lt_div_iff hpi]
        nlinarith
      show 0 ≤ (if atan2 c.2 c.1 * 180 / Real.pi < 0 then
            atan2 c.2 c.1 * 180 / Real.pi + 360
          else atan2 c.2 c.1 * 180 / Real.pi) ∧
        (if atan2 c.2 c.1 * 180 / Real.pi < 0 then
            atan2 c.2 c.1 * 180 / Real.pi + 360
          else atan2 c.2 c.1 * 180 / Real.pi) < 360
      by_cases ha : atan2 c.2 c.1 * 180 / Real.pi < 0
      · rw [if_pos ha]
        constructor <;> linarith
      · rw [if_neg ha]
        push_neg at ha
        constructor <;> linarith
    · rw [if_neg h]
      have hz : Real.sqrt (c.1 * c.1 + c.2 * c.2) = 0 :=
        le_antisymm (not_lt.mp h) (Real.sqrt_nonneg _)
      exact ⟨hz.symm, le_refl 0, by norm_num⟩
  refine ⟨hgen, ?_, ?_, ?_, ?_⟩
  · unfold toPolar
    rw [if_neg]
    norm_num
  · have harg : atan2 0 1 = 0 := by
      unfold atan2
      rw [show (⟨1, 0⟩ : ℂ) = 1 from Complex.ext (by simp) (by simp),
        Complex.arg_one]
    unfold toPolar
    rw [if_pos (by norm_num)]
    simp only
    rw [harg]
    norm_num
  · have harg : atan2 1 0 = Real.pi / 2 := by
      unfold atan2
      rw [show (⟨0, 1⟩ : ℂ) = Complex.I from Complex.ext (by simp) (by simp),
        Complex.arg_I]
    unfold toPolar
    rw [if_pos (by norm_num)]
    simp only
    rw [harg]
    have h90 : Real.pi / 2 * 180 / Real.pi = 90 := by
      field_simp
      ring
    rw [h90]
    norm_num
  · have harg : atan2 0 (-1) = Real.pi := by
      unfold atan2
      rw [show (⟨-1, 0⟩ : ℂ) = -1 from Complex.ext (by simp) (by simp),
        Complex.arg_neg_one]
    unfold toPolar
    rw [if_pos (by norm_num)]
    simp only
    rw [harg]
    have h180 : Real.pi * 180 / Real.pi = 180 := by
      field_simp
    rw [h180]
    norm_num

/-- Allocation does not disturb any array already in the store. -/
lemma Store.read_alloc (s : Store) (a : JsArray) (q : Nat)
    (hq : q < s.arrays.length) : (s.alloc a).1.read q = s.read q := by
  unfold Store.read Store.alloc
  exact List.getD_append _ _ _ _ hq

/-- Writing behind one reference does not disturb a different one. -/
lemma Store.read_write_ne (s : Store) (r q : Nat) (a : JsArray) (h : r ≠ q) :
    (s.write r a).read q = s.read q := by
  unfold Store.read Store.write
  rw [List.getD_eq_getD_get?, List.getD_eq_getD_get?, List.get?_set_ne _ _ h]

/-- The in-place rotation only touches the array behind its reference. -/
lemma read_rotateRef_ne (s : Store) (r q : Nat) (angle : ℝ) (h : r ≠ q) :
    (rotateRef s r angle).read q = s.read q :=
  Store.read_write_ne _ _ _ _ h

/-- Writing preserves the number of allocated arrays. -/
lemma Store.write_length (s : Store) (r : Nat) (a : JsArray) :
    (s.write r a).arrays.length = s.arrays.length := by
  unfold Store.write
  exact List.length_set s.arrays r a

/-- The in-place rotation preserves the number of allocated arrays. -/
lemma rotateRef_length (s : Store) (r : Nat) (angle : ℝ) :
    (rotateRef s r angle).arrays.length = s.arrays.length :=
  Store.write_length _ _ _

/-- C10: the heap-level fromLonLat and toLonLat leave every array already
allocated in the store untouched and return a reference distinct from
every existing one; in particular the input array keeps its elements and
the result is a fresh object. -/
theorem flatEarth_no_mutation (sys : FlatEarthCoordinateSystem) (s : Store)
    (r : Nat) (hr : r < s.arrays.length) :
    (∀ q : Nat, q < s.arrays.length →
      (sys.fromLonLatRef s r).1.read q = s.read q ∧
      (sys.fromLonLatRef s r).2 ≠ q) ∧
    (∀ q : Nat, q < s.arrays.length →
      (sys.toLonLatRef s r).1.read q = s.read q ∧
      (sys.toLonLatRef s r).2 ≠ q) := by
  have e2 : ∀ (st : Store) (a : JsArray), (st.alloc a).2 = st.arrays.length :=
    fun _ _ => rfl
  have e4 : ∀ (st : Store) (a : JsArray),
      ((st.alloc a).1).arrays.length = st.arrays.length + 1 := by
    intro st a
    show (st.arrays ++ [a]).length = _
    rw [List.length_append]
    rfl
  constructor
  · intro q hq
    have hne : s.arrays.length ≠ q := by omega
    refine ⟨?_, ?_⟩
    · simp only [FlatEarthCoordinateSystem.fromLonLatRef, e2]
      rw [Store.read_write_ne _ _ _ _ hne, read_rotateRef_ne _ _ _ _ hne,
        Store.read_alloc _ _ _ hq]
    · simp only [FlatEarthCoordinateSystem.fromLonLatRef, e2]
      exact hne
  · intro q hq
    have hne : s.arrays.length ≠ q := by omega
    refine ⟨?_, ?_⟩
    · simp only [FlatEarthCoordinateSystem.toLonLatRef, e2]
      rw [Store.read_alloc]
      · rw [read_rotateRef_ne _ _ _ _ hne, Store.read_alloc _ _ _ hq]
      · rw [rotateRef_length, e4]
        omega
    · simp only [FlatEarthCoordinateSystem.toLonLatRef, e2]
      rw [rotateRef_length, e4]
      omega

/-- Witness for C10 on a concrete one-array store. -/
theorem flatEarth_no_mutation_witness :
    (0 : Nat) < (Store.mk [[19, 48]]).arrays.length ∧
    (∀ q : Nat, q < (Store.mk [[19, 48]]).arrays.length →
      ((precalcSystem (19, 47) 0 "neu" WGS84).fromLonLatRef
          (Store.mk [[19, 48]]) 0).1.read q = (Store.mk [[19, 48]]).read q ∧
      ((precalcSystem (19, 47) 0 "neu" WGS84).fromLonLatRef
          (Store.mk [[19, 48]]) 0).2 ≠ q) ∧
    (∀ q : Nat, q < (Store.mk [[19, 48]]).arrays.length →
      ((precalcSystem (19, 47) 0 "neu" WGS84).toLonLatRef
          (Store.mk [[19, 48]]) 0).1.read q = (Store.mk [[19, 48]]).read q ∧
      ((precalcSystem (19, 47) 0 "neu" WGS84).toLonLatRef
          (Store.mk [[19, 48]]) 0).2 ≠ q) := by
  refine ⟨Nat.zero_lt_one, ?_⟩
  have h := flatEarth_no_mutation (precalcSystem (19, 47) 0 "neu" WGS84)
    (Store.mk [[19, 48]]) 0 Nat.zero_lt_one
  exact h

end GeographyUtils
